import Mathlib

/-!
Shallow embedding of the `veneer` nvlist decoder (`src/nvpair.rs`) and the
ZFS domain layer (`src/zfs.rs`, `src/ioc.rs`), with theorems checking the
natural-language specification against the code.

Byte buffers are `List Nat` (each element a byte value `< 256`); machine
integers are modelled as `Nat`/`Int` with explicit wrapping where the source
casts.  Fallible code returns an explicit outcome type with a distinguished
`crash` result for Rust panics (index out of bounds, `assert_eq!`, `todo!()`,
`unwrap` on `None`) and a `spin` result used only when the step-count fuel of
a loop runs out.
-/

namespace Veneer

abbrev Buf := List Nat

/-- `ParseError` from `src/nvpair.rs`. -/
inductive ParseError where
  | invalidEncoding
  | invalidEndian
  | shortRead
  | unterminatedString
  | unknownPairType (t : Int)
  | ioError
deriving DecidableEq

/-- Outcome of running a piece of Rust code: normal return, `Err(e)` return,
a panic (with the panic message), or loop fuel exhaustion (`spin`, standing
for a computation the fueled model did not finish). -/
inductive Res (ε α : Type) where
  | ok (a : α)
  | err (e : ε)
  | crash (msg : String)
  | spin
deriving DecidableEq

/-- `?` / early-return plumbing for `Res`. -/
def Res.bind {ε α β : Type} : Res ε α → (α → Res ε β) → Res ε β
  | .ok a, f => f a
  | .err e, _ => .err e
  | .crash m, _ => .crash m
  | .spin, _ => .spin

abbrev POut (α : Type) := Res ParseError α

mutual
/-- `PairValue` from `src/nvpair.rs`, restricted to the variants the decoder
actually constructs (`Boolean`, `UInt64`, `String`, `UInt64Array`, `List`,
`ListArray`); every other arm of `parse_pair` is `todo!()` and panics before
constructing a value.  `CString` payloads are byte lists without the nul. -/
inductive PairValue where
  | boolean
  | uint64 (n : Nat)
  | string (s : Buf)
  | uint64Array (ns : List Nat)
  | list (l : PairList)
  | listArray (ls : List PairList)

/-- `Pair(CString, PairValue)` from `src/nvpair.rs`. -/
inductive Pair where
  | mk (name : Buf) (v : PairValue)

/-- `PairList(Vec<Pair>)` from `src/nvpair.rs`. -/
inductive PairList where
  | mk (ps : List Pair)
end

def Pair.name : Pair → Buf
  | .mk n _ => n

def Pair.value : Pair → PairValue
  | .mk _ v => v

/-- `Pair::as_list`. -/
def Pair.asList : Pair → Option PairList
  | .mk _ (.list l) => some l
  | _ => none

/-- `Pair::as_list_slice`. -/
def Pair.asListSlice : Pair → Option (List PairList)
  | .mk _ (.listArray s) => some s
  | _ => none

/-- `Pair::to_u64`. -/
def Pair.toU64 : Pair → Option Nat
  | .mk _ (.uint64 n) => some n
  | _ => none

def PairList.pairs : PairList → List Pair
  | .mk ps => ps

/-- `PairList::keys` (names of the pairs, in order). -/
def PairList.keysList (l : PairList) : List Buf :=
  l.pairs.map Pair.name

/-- `PairList::get`: `CString::new(t)` fails on an interior nul (giving
`None`), otherwise the first pair whose name equals the key. -/
def PairList.get (l : PairList) (key : Buf) : Option Pair :=
  if key.contains 0 then none
  else l.pairs.find? (fun p => p.name == key)

/-- Value of a little-endian byte sequence. -/
def leVal (bytes : Buf) : Nat :=
  bytes.foldr (fun b acc => b + 256 * acc) 0

/-- Reinterpret `n` as a `w`-bit two's-complement signed integer. -/
def toSigned (w : Nat) (n : Nat) : Int :=
  let m := n % 2 ^ w
  if m < 2 ^ (w - 1) then (m : Int) else (m : Int) - 2 ^ w

/-- `Parser::parse_int::<T>` for a signed `T` of `w8` bytes: `ShortRead` when
the buffer is smaller than the type, otherwise the little-endian value and
the rest of the buffer. -/
def parseIntS (w8 : Nat) (buf : Buf) : POut (Int × Buf) :=
  if buf.length < w8 then .err .shortRead
  else .ok (toSigned (8 * w8) (leVal (buf.take w8)), buf.drop w8)

/-- `Parser::parse_int::<T>` for an unsigned `T` of `w8` bytes. -/
def parseIntU (w8 : Nat) (buf : Buf) : POut (Nat × Buf) :=
  if buf.length < w8 then .err .shortRead
  else .ok (leVal (buf.take w8), buf.drop w8)

abbrev parseI16 := parseIntS 2
abbrev parseI32 := parseIntS 4
abbrev parseU32 := parseIntU 4
abbrev parseU64 := parseIntU 8

/-- `align(n) = (n + 7) & !7` from `src/nvpair.rs`, written in `Nat`
arithmetic (the two agree for every `n` that fits in `usize`). -/
def align (n : Nat) : Nat :=
  (n + 7) - (n + 7) % 8

/-- `Parser::parse_string`: `CStr::from_bytes_until_nul` fails with
`UnterminatedString` when no nul is in the window; the cursor then advances
by `align(len_with_nul)` bytes, and `&buf[s..]` panics when `s` exceeds the
buffer length. -/
def parseString (buf : Buf) : POut (Buf × Buf) :=
  match buf.findIdx? (fun b => b == 0) with
  | none => .err .unterminatedString
  | some i =>
    let s := align (i + 1)
    if buf.length < s then .crash "slice index out of range"
    else .ok (buf.take i, buf.drop s)

/-- `(z as i32)` wrapping of an integer (release-mode two's complement). -/
def wrapI32 (z : Int) : Int :=
  let m := z % 2 ^ 32
  if m < 2 ^ 31 then m else m - 2 ^ 32

/-- `(len - 4) as usize` where `len : i32`: wrap the `i32` subtraction, then
sign-extend into the 64-bit unsigned index space. -/
def i32AsUsize (z : Int) : Nat :=
  ((wrapI32 z) % 2 ^ 64).toNat

/-- Iteration count of `for _ in 0..n` for an `i32` bound `n`. -/
def intIter (n : Int) : Nat := n.toNat

/-- The `PairType::UInt64Array` arm: read `n` little-endian `u64`s. -/
def parseU64N : Nat → Buf → POut (List Nat × Buf)
  | 0, buf => .ok ([], buf)
  | n + 1, buf =>
    (parseU64 buf).bind fun (v, buf1) =>
    (parseU64N n buf1).bind fun (vs, rest) =>
    .ok (v :: vs, rest)

/-- The `PairType::NVListArray` loop: `n` nested nvlists back-to-back, with
the nvlist parser passed in (the fuel level is fixed by the caller). -/
def parseNvlistNGo (pn : Buf → POut (PairList × Buf)) :
    Nat → Buf → POut (List PairList × Buf)
  | 0, buf => .ok ([], buf)
  | n + 1, buf =>
    (pn buf).bind fun (l, buf1) =>
    (parseNvlistNGo pn n buf1).bind fun (ls, rest) =>
    .ok (l :: ls, rest)

/-- Body of `Parser::parse_pair` from `src/nvpair.rs`, with the nvlist parser
for the next fuel level passed in.  Reads the 4-byte total-length field (0
terminates the pair loop), splits off the `(len - 4)`-byte bounded region
(`split_at` panics when the buffer is too short for it), reads the header and
name inside the region, resolves the type tag (`FromPrimitive::from_i32`
fails outside `1..=27`, giving `UnknownPairType`), and decodes the value; the
`NVList`/`NVListArray` arms parse from `nbuf` — the bytes that follow the
bounded region — and return the cursor after the nested data, while the
remaining enumerated tags are `todo!()` in the source and panic. -/
def parsePairGo (pn : Buf → POut (PairList × Buf)) (buf : Buf) :
    POut (Option Pair × Buf) :=
  (parseI32 buf).bind fun (len, buf1) =>
  if len = 0 then .ok (none, buf1)
  else
    let mid := i32AsUsize (len - 4)
    if buf1.length < mid then .crash "split_at mid out of bounds"
    else
      let region := buf1.take mid
      let nbuf := buf1.drop mid
      (parseI16 region).bind fun (_nameLen, r1) =>
      (parseI16 r1).bind fun (_reserve, r2) =>
      (parseI32 r2).bind fun (nelems, r3) =>
      (parseI32 r3).bind fun (ityp, r4) =>
      (parseString r4).bind fun (name, r5) =>
      if ityp < 1 ∨ 27 < ityp then .err (.unknownPairType ityp)
      else if ityp = 1 then .ok (some (.mk name .boolean), nbuf)
      else if ityp = 8 then
        (parseU64 r5).bind fun (n, _) => .ok (some (.mk name (.uint64 n)), nbuf)
      else if ityp = 9 then
        (parseString r5).bind fun (s, _) => .ok (some (.mk name (.string s)), nbuf)
      else if ityp = 16 then
        (parseU64N (intIter nelems) r5).bind fun (v, _) =>
          .ok (some (.mk name (.uint64Array v)), nbuf)
      else if ityp = 19 then
        (pn nbuf).bind fun (l, pbuf) =>
          .ok (some (.mk name (.list l)), pbuf)
      else if ityp = 20 then
        (parseNvlistNGo pn (intIter nelems) nbuf).bind fun (v, pbuf) =>
          .ok (some (.mk name (.listArray v)), pbuf)
      else .crash "not yet implemented"

/-- Body of `Parser::parse_nvlist`: loop `parse_pair` until the zero-length
terminator, collecting the pairs in order (pair and nvlist parsers for the
next fuel level passed in). -/
def parseNvlistGo (pp : Buf → POut (Option Pair × Buf))
    (pn : Buf → POut (PairList × Buf)) (buf : Buf) : POut (PairList × Buf) :=
  (pp buf).bind fun
    | (some p, buf1) =>
      (pn buf1).bind fun (l, rest) => .ok (.mk (p :: l.pairs), rest)
    | (none, buf1) => .ok (.mk [], buf1)

/-- The mutually recursive `parse_pair`/`parse_nvlist` pair of
`src/nvpair.rs`, built level by level over a step-count fuel so that the
definition is structural (and hence computable by the kernel); running out of
fuel yields `spin`. -/
def parseFuns : Nat → ((Buf → POut (Option Pair × Buf)) × (Buf → POut (PairList × Buf)))
  | 0 => (fun _ => .spin, fun _ => .spin)
  | fuel + 1 =>
    ((parseFuns fuel).2 |> parsePairGo,
     parseNvlistGo (parseFuns fuel).1 (parseFuns fuel).2)

/-- `Parser::parse_pair`, fueled. -/
def parsePair (fuel : Nat) : Buf → POut (Option Pair × Buf) :=
  (parseFuns fuel).1

/-- `Parser::parse_nvlist`, fueled. -/
def parseNvlist (fuel : Nat) : Buf → POut (PairList × Buf) :=
  (parseFuns fuel).2

theorem parsePair_succ (fuel : Nat) :
    parsePair (fuel + 1) = parsePairGo (parseNvlist fuel) := rfl

theorem parseNvlist_succ (fuel : Nat) :
    parseNvlist (fuel + 1) = parseNvlistGo (parsePair fuel) (parseNvlist fuel) := rfl

/-- `Parser::parse` from `src/nvpair.rs`: the two marker bytes (indexing
panics on a too-short buffer), the `assert_eq!` checks on encoding, endian,
version and flags (failed asserts panic), then the top-level pair loop. -/
def parserParse (fuel : Nat) (buf : Buf) : POut PairList :=
  match buf[0]? with
  | none => .crash "index out of bounds"
  | some b0 =>
    if 2 ≤ b0 then .err .invalidEncoding
    else
      match buf[1]? with
      | none => .crash "index out of bounds"
      | some b1 =>
        if 2 ≤ b1 then .err .invalidEndian
        else if b0 ≠ 0 then .crash "assertion failed: encoding == Native"
        else if b1 ≠ 1 then .crash "assertion failed: endian == Little"
        else if buf.length < 4 then .crash "slice index out of range"
        else
          (parseI32 (buf.drop 4)).bind fun (version, lbuf1) =>
          (parseU32 lbuf1).bind fun (flags, lbuf2) =>
          if version ≠ 0 then .crash "assertion failed: version == 0"
          else if flags ≠ 1 then .crash "assertion failed: flags == 1"
          else (parseNvlist fuel lbuf2).bind fun (l, _) => .ok l

/-- `nvpair::parse`: run the parser with enough fuel for the buffer (each
fuel unit consumed on a loop path corresponds to at least one consumed
byte). -/
def nvparse (buf : Buf) : POut PairList :=
  parserParse (buf.length + 2) buf

/-! ## The domain layer of `src/zfs.rs` / `src/ioc.rs` -/

/-- Error type of the domain layer: the `IOError::from(IOErrorKind::NotFound)`
values produced in `src/zfs.rs`. -/
inductive ZfsErr where
  | notFound
deriving DecidableEq

/-- The key `"vdev_tree"` as bytes. -/
def vdevTreeKey : Buf := [118, 100, 101, 118, 95, 116, 114, 101, 101]

/-- The key `"guid"` as bytes. -/
def guidKey : Buf := [103, 117, 105, 100]

/-- The key `"children"` as bytes. -/
def childrenKey : Buf := [99, 104, 105, 108, 100, 114, 101, 110]

/-- `vd.get("guid").and_then(|p| p.to_u64())` from `Handle::get_vdev`. -/
def vdGuid (vd : PairList) : Option Nat :=
  (vd.get guidKey).bind Pair.toU64

/-- `vd.get("children").and_then(|p| p.as_list_slice()).into_iter().flatten()`
from `Handle::get_vdev`: the node's child list, empty when the entry is
missing or not a list array. -/
def vdChildren (vd : PairList) : List PairList :=
  ((vd.get childrenKey).bind Pair.asListSlice).getD []

mutual
/-- Structural size of a `PairList`, used to bound the breadth-first walk. -/
def PairList.sz : PairList → Nat
  | .mk ps => pairsSz ps + 1

def pairsSz : List Pair → Nat
  | [] => 0
  | p :: ps => Pair.psz p + pairsSz ps

def Pair.psz : Pair → Nat
  | .mk _ v => PairValue.vsz v + 1

def PairValue.vsz : PairValue → Nat
  | .list l => PairList.sz l + 1
  | .listArray ls => listsSz ls + 1
  | _ => 1

def listsSz : List PairList → Nat
  | [] => 0
  | l :: ls => PairList.sz l + listsSz ls
end

/-- The `while let Some(vd) = vds.pop_front()` loop of `Handle::get_vdev`:
pop a node; when it carries a `guid` entry, cache it under that guid unless
the guid is already cached, and queue its children; a node without a `guid`
entry is dropped without queueing its children.  The cache (`self.vdevs`,
a `FrozenMap<u64, Box<PairList>>`) is an association list with unique keys.
The loop is fueled (`none` = fuel ran out); `listsSz` of the initial queue is
always enough fuel, since each iteration strictly shrinks the queue's total
size. -/
def bfsF : Nat → List PairList → List (Nat × PairList) → Option (List (Nat × PairList))
  | _, [], cache => some cache
  | 0, _ :: _, _ => none
  | fuel + 1, vd :: rest, cache =>
    match vdGuid vd with
    | none => bfsF fuel rest cache
    | some u =>
      bfsF fuel (rest ++ vdChildren vd)
        (if (List.lookup u cache).isSome then cache else (u, vd) :: cache)

/-- `Handle::get_vdev` from `src/zfs.rs`, as a function of the current vdev
cache and the pool's statistics list: return a cached hit; otherwise extract
`vdev_tree` (`NotFound` when absent or not a list), run the breadth-first
walk to populate the cache, and finally `self.vdevs.get(&guid).unwrap()` —
a panic when the walk did not cache the requested guid. -/
def getVdev (cache : List (Nat × PairList)) (plist : PairList) (g : Nat) :
    Res ZfsErr PairList :=
  match List.lookup g cache with
  | some v => .ok v
  | none =>
    match (plist.get vdevTreeKey).bind Pair.asList with
    | none => .err .notFound
    | some top =>
      match bfsF (PairList.sz top) [top] cache with
      | none => .spin
      | some cache2 =>
        match List.lookup g cache2 with
        | some v => .ok v
        | none => .crash "called Option::unwrap on a None value"

/-- `Pool::root_vdev` from `src/zfs.rs`: the guid used to build the root
`Vdev`, extracted as `vdev_tree` → `as_list` → `get("guid")` → `to_u64`,
with `NotFound` when any step fails. -/
def rootVdev (plist : PairList) : Res ZfsErr Nat :=
  match (((plist.get vdevTreeKey).bind Pair.asList).bind
      fun l => (l.get guidKey).bind Pair.toU64) with
  | none => .err .notFound
  | some g => .ok g

/-- Reachability of a guid through the breadth-first walk of
`Handle::get_vdev`: the walk only descends into the children of a node that
itself carries a `guid` entry. -/
inductive GuidReach (g : Nat) : PairList → Prop
  | here (vd : PairList) (hg : vdGuid vd = some g) : GuidReach g vd
  | deeper (vd c : PairList) (hs : (vdGuid vd).isSome = true)
      (hc : c ∈ vdChildren vd) (hr : GuidReach g c) : GuidReach g vd

/-- Invariant of the vdev cache: every cached statistics container carries
its own key as its `guid` entry. -/
def CacheInv (cache : List (Nat × PairList)) : Prop :=
  ∀ u v, List.lookup u cache = some v → vdGuid v = some u

/-! ### The dataset walk of `Handle::get_dataset_list` -/

/-- Error shape of a failed `ioc` call as seen by `get_dataset_list`:
either an `std::io::Error` with its `raw_os_error()` code, or some other
boxed error (for which `e.downcast::<IOError>()` fails and propagates). -/
inductive ZIOErr where
  | io (code : Option Int)
  | other
deriving DecidableEq

/-- `IterState` from `src/ioc.rs`. -/
structure IterState where
  name : Buf
  list : PairList
  cookie : Nat

/-- The ioctl surface `get_dataset_list` drives, abstracted: the pool-config
fetch, per-dataset `objset_stats`, and the `dataset_list_next` iterator. -/
structure IocMock where
  poolConfigs : Except ZIOErr PairList
  objsetStats : Buf → Except ZIOErr PairList
  dlNext : Buf → Nat → Except ZIOErr IterState

/-- The `while let Some((name, cookie)) = stack.pop()` loop of
`Handle::get_dataset_list`, fueled.  A successful `dataset_list_next` pushes
the sibling continuation `(name, is.cookie)` and then the child `(is.name, 0)`
(so the child is popped first) and appends the child name to the flat list;
a failure is checked by `ioe.raw_os_error().filter(|n| *n == 3).ok_or(ioe)?`:
exactly an `IOError` with code 3 (`ESRCH`) ends that branch of the walk,
anything else propagates. -/
def dlWalk (f : Buf → Nat → Except ZIOErr IterState) :
    Nat → List (Buf × Nat) → List Buf → Res ZIOErr (List Buf)
  | _, [], acc => .ok acc
  | 0, _ :: _, _ => .spin
  | fuel + 1, (name, cookie) :: st, acc =>
    match f name cookie with
    | .ok is => dlWalk f fuel ((is.name, 0) :: (name, is.cookie) :: st) (acc ++ [is.name])
    | .error e =>
      if e = .io (some 3) then dlWalk f fuel st acc else .err e

/-- The `for pool in self.get_config()?.keys()` loop of
`Handle::get_dataset_list`: fetch the pool's own dataset stats (`?`
propagates a failure), list the pool name, then run the cookie walk rooted
at the pool. -/
def goPools (m : IocMock) (fuel : Nat) : List Buf → List Buf → Res ZIOErr (List Buf)
  | [], acc => .ok acc
  | pool :: rest, acc =>
    match m.objsetStats pool with
    | .error e => .err e
    | .ok _ =>
      match dlWalk m.dlNext fuel [(pool, 0)] (acc ++ [pool]) with
      | .ok acc2 => goPools m fuel rest acc2
      | .err e => .err e
      | .crash s => .crash s
      | .spin => .spin

/-- `Handle::get_dataset_list` from `src/zfs.rs`, over the abstract ioctl
surface. -/
def getDatasetList (m : IocMock) (fuel : Nat) : Res ZIOErr (List Buf) :=
  match m.poolConfigs with
  | .error e => .err e
  | .ok cfg => goPools m fuel cfg.keysList []

/-! ### `Pool::datasets` filtering -/

/-- The filter of `Pool::datasets` from `src/zfs.rs`:
`ds.to_bytes().starts_with(name) && (ds.to_bytes().len() == name.len() ||
ds.to_bytes()[name.len()] == b'/')` (the index is written with a total
lookup, which agrees with the source because `||` only reaches the index when
`ds` is a strictly longer extension of `name`). -/
def datasetsFilter (name : Buf) (dss : List Buf) : List Buf :=
  dss.filter fun ds =>
    name.isPrefixOf ds &&
      (ds.length == name.length || ds[name.length]? == some 47)

/-- Modelled from the spec sentence for `datasets()`: keep exactly the names
equal to the pool's name or starting with the pool's name followed by the
`/` separator. -/
def specDatasets (name : Buf) (dss : List Buf) : List Buf :=
  dss.filter fun ds => ds == name || (name ++ [47]).isPrefixOf ds

/-! ### Concrete fixtures used by witnesses and counterexamples -/

/-- A container-tagged pair (type 19) with total length 28: a 24-byte bounded
region whose header names the pair `"a"`, four garbage bytes after the name,
then the empty nested container terminator `00 00 00 00`. -/
def c1buf : Buf :=
  [28, 0, 0, 0, 2, 0, 0, 0, 0, 0, 0, 0, 19, 0, 0, 0,
   97, 0, 0, 0, 0, 0, 0, 0, 222, 173, 190, 239, 0, 0, 0, 0]

/-- A pair with the unknown type tag 99 (name `"a"`, total length 24). -/
def c2pairBuf : Buf :=
  [24, 0, 0, 0, 2, 0, 0, 0, 0, 0, 0, 0, 99, 0, 0, 0, 97, 0, 0, 0, 0, 0, 0, 0]

/-- A full nvlist buffer (valid header) containing the tag-99 pair. -/
def c2buf : Buf :=
  [0, 1, 0, 0, 0, 0, 0, 0, 1, 0, 0, 0] ++ c2pairBuf ++ [0, 0, 0, 0]

/-- A full nvlist buffer containing a pair with the enumerated-but-`todo!()`
type tag 2 (`Byte`). -/
def c2todoBuf : Buf :=
  [0, 1, 0, 0, 0, 0, 0, 0, 1, 0, 0, 0,
   24, 0, 0, 0, 2, 0, 0, 0, 0, 0, 0, 0, 2, 0, 0, 0, 97, 0, 0, 0, 0, 0, 0, 0,
   0, 0, 0, 0]

/-- Pool statistics whose `vdev_tree` root carries no `guid` entry but has a
child that carries guid 7. -/
def c8plist : PairList :=
  .mk [.mk vdevTreeKey (.list (.mk
    [.mk childrenKey (.listArray [.mk [.mk guidKey (.uint64 7)]])]))]

/-- Leaf node of guid 7 used by the C8 witness tree. -/
def c8leaf : PairList := .mk [.mk guidKey (.uint64 7)]

/-- Middle node of guid 3 whose only child is `c8leaf`. -/
def c8mid : PairList :=
  .mk [.mk guidKey (.uint64 3), .mk childrenKey (.listArray [c8leaf])]

/-- The device tree used by the C8 witness: root guid 1 with children of
guids 2 and 3, and guid 7 two levels below the root under guid 3. -/
def c8top : PairList :=
  .mk [.mk guidKey (.uint64 1),
    .mk childrenKey (.listArray [.mk [.mk guidKey (.uint64 2)], c8mid])]

/-- Pool statistics carrying `c8top` as `vdev_tree`. -/
def c8wplist : PairList := .mk [.mk vdevTreeKey (.list c8top)]

/-- The device tree used by the C10 witness: a single node of guid 1. -/
def c10top : PairList := .mk [.mk guidKey (.uint64 1)]

/-- Pool statistics carrying `c10top` as `vdev_tree`. -/
def c10plist : PairList := .mk [.mk vdevTreeKey (.list c10top)]

/-- `"tank"` as bytes. -/
def tankName : Buf := [116, 97, 110, 107]

/-- An ioctl surface with a single pool `"tank"` whose first
`dataset_list_next` call fails with `ESRCH` (os error 3). -/
def c6mock : IocMock where
  poolConfigs := .ok (.mk [.mk tankName .boolean])
  objsetStats := fun _ => .ok (.mk [])
  dlNext := fun _ _ => .error (.io (some 3))

/-- `"pool"` as bytes. -/
def poolName : Buf := [112, 111, 111, 108]

/-- `"pool/a"` as bytes. -/
def poolA : Buf := [112, 111, 111, 108, 47, 97]

/-- `"pool/ab"` as bytes. -/
def poolAB : Buf := [112, 111, 111, 108, 47, 97, 98]

/-- `"poolx"` as bytes. -/
def poolX : Buf := [112, 111, 111, 108, 120]

/-! ## Helper lemmas -/

theorem parseIntS_ok {w8 : Nat} {buf r : Buf} {v : Int}
    (h : parseIntS w8 buf = .ok (v, r)) :
    w8 ≤ buf.length ∧ r = buf.drop w8 ∧ v = toSigned (8 * w8) (leVal (buf.take w8)) := by
  unfold parseIntS at h
  split at h
  · cases h
  · next hlt =>
    injection h with h1
    injection h1 with hv hr
    exact ⟨Nat.le_of_not_lt hlt, hr.symm, hv.symm⟩

theorem toSigned32_bounds (n : Nat) :
    -(2 : Int) ^ 31 ≤ toSigned 32 n ∧ toSigned 32 n < 2 ^ 31 := by
  unfold toSigned
  have h := Nat.mod_lt n (show 0 < 2 ^ 32 by norm_num)
  simp only [show (2 : Nat) ^ 32 = 4294967296 from by norm_num,
    show (2 : Nat) ^ (32 - 1) = 2147483648 from by norm_num,
    show (2 : Int) ^ 31 = 2147483648 from by norm_num,
    show (2 : Int) ^ 32 = 4294967296 from by norm_num] at *
  split <;> constructor <;> omega

theorem i32AsUsize_eq {z : Int} (h0 : 0 ≤ z) (h1 : z < 2 ^ 31) :
    i32AsUsize z = z.toNat := by
  unfold i32AsUsize wrapI32
  simp only [show (2 : Int) ^ 31 = 2147483648 from by norm_num,
    show (2 : Int) ^ 32 = 4294967296 from by norm_num,
    show (2 : Int) ^ 64 = 18446744073709551616 from by norm_num] at *
  rw [Int.emod_eq_of_lt h0 (by omega)]
  rw [if_pos (by omega)]
  rw [Int.emod_eq_of_lt h0 (by omega)]

/-! ## Claims about the binary codec -/

/-- C1: for a pair whose type tag is the nested-container tag (19), the
decoder parses the nested container with the same pair-loop algorithm
starting at byte position `len` of the pair — immediately after the pair's
bounded region, where the next sibling pair would otherwise start — and
resumes the outer cursor at whatever position the nested parse returns;
the bytes of the bounded region after the header (the garbage) play no
role. -/
theorem c1_nested_container (fuel : Nat) (buf : Buf) {buf1 r1 r2 r3 r4 r5 name : Buf}
    {len x1 x2 nelems : Int}
    (hlen : parseI32 buf = .ok (len, buf1)) (hge : 4 ≤ len)
    (hmid : i32AsUsize (len - 4) ≤ buf1.length)
    (h1 : parseI16 (buf1.take (i32AsUsize (len - 4))) = .ok (x1, r1))
    (h2 : parseI16 r1 = .ok (x2, r2))
    (h3 : parseI32 r2 = .ok (nelems, r3))
    (h4 : parseI32 r3 = .ok (19, r4))
    (h5 : parseString r4 = .ok (name, r5)) :
    parsePair (fuel + 1) buf =
      (parseNvlist fuel (buf.drop len.toNat)).bind fun (l, pbuf) =>
        .ok (some (.mk name (.list l)), pbuf) := by
  obtain ⟨hbl, hb1, hval⟩ := parseIntS_ok hlen
  have hlt : len < 2 ^ 31 := by
    rw [hval]; exact (toSigned32_bounds (leVal (buf.take 4))).2
  have hdrop : buf1.drop (i32AsUsize (len - 4)) = buf.drop len.toNat := by
    rw [hb1, i32AsUsize_eq (by omega) (by omega), List.drop_drop]
    congr 1
    omega
  rw [parsePair_succ]
  unfold parsePairGo
  rw [hlen]
  simp only [Res.bind]
  rw [if_neg (by omega : ¬ len = 0)]
  simp only [if_neg (Nat.not_lt.mpr hmid), h1, Res.bind, h2, h3, h4, h5]
  rw [if_neg (by norm_num : ¬ ((19 : Int) < 1 ∨ 27 < (19 : Int)))]
  rw [if_neg (by norm_num : ¬ (19 : Int) = 1)]
  rw [if_neg (by norm_num : ¬ (19 : Int) = 8)]
  rw [if_neg (by norm_num : ¬ (19 : Int) = 9)]
  rw [if_neg (by norm_num : ¬ (19 : Int) = 16)]
  rw [if_pos trivial]
  rw [hdrop]

/-- Witness for C1: on the concrete garbage-carrying container pair `c1buf`,
the hypotheses of `c1_nested_container` hold, and the decode yields the empty
nested container and the fully consumed buffer, ignoring the garbage. -/
theorem c1_witness :
    parseI32 c1buf = .ok (28, c1buf.drop 4) ∧
    parsePair 3 c1buf = .ok (some (.mk [97] (.list (.mk []))), []) := by
  constructor
  · rfl
  · exact (c1_nested_container 2 c1buf rfl (by decide) (by decide) rfl rfl rfl rfl rfl).trans rfl

/-- C2 (amended): a pair whose 4-byte type tag lies outside the enumerated
set `1..=27` decodes to the `UnknownPairType` error carrying the tag, and no
partial container is returned. -/
theorem c2_unknown_tag (fuel : Nat) (buf : Buf) {buf1 r1 r2 r3 r4 r5 name : Buf}
    {len x1 x2 nelems ityp : Int}
    (hlen : parseI32 buf = .ok (len, buf1)) (hnz : len ≠ 0)
    (hmid : i32AsUsize (len - 4) ≤ buf1.length)
    (h1 : parseI16 (buf1.take (i32AsUsize (len - 4))) = .ok (x1, r1))
    (h2 : parseI16 r1 = .ok (x2, r2))
    (h3 : parseI32 r2 = .ok (nelems, r3))
    (h4 : parseI32 r3 = .ok (ityp, r4))
    (h5 : parseString r4 = .ok (name, r5))
    (htag : ityp < 1 ∨ 27 < ityp) :
    parsePair (fuel + 1) buf = .err (.unknownPairType ityp) := by
  rw [parsePair_succ]
  unfold parsePairGo
  rw [hlen]
  simp only [Res.bind]
  rw [if_neg hnz]
  simp only [if_neg (Nat.not_lt.mpr hmid), h1, Res.bind, h2, h3, h4, h5]
  rw [if_pos htag]

/-- Counterexample to C2 as frozen: a pair with the enumerated-but-
unimplemented tag 2 (`Byte`) does not produce an error result — the decoder
hits the `todo!()` arm and panics. -/
theorem c2_counterexample :
    nvparse c2todoBuf = .crash "not yet implemented" := rfl

/-- Witness for C2: the tag-99 pair decodes to `UnknownPairType(99)` both at
the pair level (via `c2_unknown_tag`) and for the whole buffer. -/
theorem c2_witness :
    parsePair 1 c2pairBuf = .err (.unknownPairType 99) ∧
    nvparse c2buf = .err (.unknownPairType 99) := by
  constructor
  · exact c2_unknown_tag 0 c2pairBuf rfl (by decide) (by decide) rfl rfl rfl rfl rfl
      (by norm_num)
  · rfl

/-- C3 (amended): a byte-0 marker outside `{0, 1}` yields `InvalidEncoding`;
with byte 0 in `{0, 1}`, a byte-1 marker outside `{0, 1}` yields
`InvalidEndian`; but byte 0 = 1 (the XDR marker) or byte 1 = 0 (the
big-endian marker) passes the marker match and then fails the
`assert_eq!` — a panic, not a marker error. -/
theorem c3_markers (b0 b1 : Nat) (rest : Buf) :
    (2 ≤ b0 → nvparse (b0 :: b1 :: rest) = .err .invalidEncoding) ∧
    (b0 < 2 → 2 ≤ b1 → nvparse (b0 :: b1 :: rest) = .err .invalidEndian) ∧
    (b0 = 1 → b1 < 2 →
      nvparse (b0 :: b1 :: rest) = .crash "assertion failed: encoding == Native") ∧
    (b0 = 0 → b1 = 0 →
      nvparse (b0 :: b1 :: rest) = .crash "assertion failed: endian == Little") := by
  refine ⟨fun h0 => ?_, fun h0 h1 => ?_, fun h0 h1 => ?_, fun h0 h1 => ?_⟩ <;>
    · unfold nvparse parserParse
      simp only [List.getElem?_cons_zero, List.getElem?_cons_succ]
      first
      | rw [if_pos h0]
      | (rw [if_neg (by omega : ¬ 2 ≤ b0)]
         first
         | rw [if_pos h1]
         | (rw [if_neg (by omega : ¬ 2 ≤ b1)]
            first
            | rw [if_pos (by omega : b0 ≠ 0)]
            | (rw [if_neg (by omega : ¬ b0 ≠ 0), if_pos (by omega : b1 ≠ 1)])))

/-- Counterexample to C3 as frozen: byte 0 = 1 is not 0, yet decoding does
not return `InvalidEncoding` — it panics on `assert_eq!(encoding, Native)`. -/
theorem c3_counterexample :
    nvparse [1, 1] = .crash "assertion failed: encoding == Native" := rfl

theorem parserParse_header (fuel : Nat) (a b : Nat) (lbuf : Buf) :
    parserParse fuel (0 :: 1 :: a :: b :: lbuf) =
      ((parseI32 lbuf).bind fun (version, lbuf1) =>
       (parseU32 lbuf1).bind fun (flags, lbuf2) =>
       if version ≠ 0 then .crash "assertion failed: version == 0"
       else if flags ≠ 1 then .crash "assertion failed: flags == 1"
       else (parseNvlist fuel lbuf2).bind fun (l, _) => .ok l) := by
  unfold parserParse
  simp only [List.getElem?_cons_zero, List.getElem?_cons_succ]
  rw [if_neg (by norm_num : ¬ 2 ≤ 0)]
  rw [if_neg (by norm_num : ¬ 2 ≤ 1)]
  rw [if_neg (by norm_num : ¬ (0 : Nat) ≠ 0)]
  rw [if_neg (by norm_num : ¬ (1 : Nat) ≠ 1)]
  rw [if_neg (show ¬ ((0 :: 1 :: a :: b :: lbuf).length < 4) by
    simp only [List.length_cons]; omega)]
  simp only [List.drop_succ_cons, List.drop_zero]

/-- C4 (amended): a nonzero version field or a flags word other than the
unique-names value 1 does stop the decode, but through a failed `assert_eq!`
— a panic — not an error result. -/
theorem c4_version_flags (a b v0 v1 v2 v3 f0 f1 f2 f3 : Nat) (rest : Buf) :
    (toSigned 32 (leVal [v0, v1, v2, v3]) ≠ 0 →
      nvparse (0 :: 1 :: a :: b :: v0 :: v1 :: v2 :: v3 :: f0 :: f1 :: f2 :: f3 :: rest) =
        .crash "assertion failed: version == 0") ∧
    (toSigned 32 (leVal [v0, v1, v2, v3]) = 0 → leVal [f0, f1, f2, f3] ≠ 1 →
      nvparse (0 :: 1 :: a :: b :: v0 :: v1 :: v2 :: v3 :: f0 :: f1 :: f2 :: f3 :: rest) =
        .crash "assertion failed: flags == 1") := by
  have hv : parseI32 (v0 :: v1 :: v2 :: v3 :: f0 :: f1 :: f2 :: f3 :: rest) =
      .ok (toSigned 32 (leVal [v0, v1, v2, v3]), f0 :: f1 :: f2 :: f3 :: rest) := by
    unfold parseI32 parseIntS
    rw [if_neg (show ¬ ((v0 :: v1 :: v2 :: v3 :: f0 :: f1 :: f2 :: f3 :: rest).length < 4) by
      simp only [List.length_cons]; omega)]
    simp only [List.take_succ_cons, List.take_zero, List.drop_succ_cons, List.drop_zero]
  have hf : parseU32 (f0 :: f1 :: f2 :: f3 :: rest) = .ok (leVal [f0, f1, f2, f3], rest) := by
    unfold parseU32 parseIntU
    rw [if_neg (show ¬ ((f0 :: f1 :: f2 :: f3 :: rest).length < 4) by
      simp only [List.length_cons]; omega)]
    simp only [List.take_succ_cons, List.take_zero, List.drop_succ_cons, List.drop_zero]
  refine ⟨fun h0 => ?_, fun h0 h1 => ?_⟩
  · unfold nvparse
    rw [parserParse_header, hv]
    simp only [Res.bind]
    rw [hf]
    simp only [Res.bind]
    rw [if_pos h0]
  · unfold nvparse
    rw [parserParse_header, hv]
    simp only [Res.bind]
    rw [hf]
    simp only [Res.bind]
    rw [if_neg (by simp [h0]), if_pos h1]

/-- Counterexample to C4 as frozen: a buffer whose version field is 1 makes
the decoder panic on `assert_eq!(version, 0)` instead of returning a decode
error result. -/
theorem c4_counterexample :
    nvparse [0, 1, 0, 0, 1, 0, 0, 0, 1, 0, 0, 0] =
      .crash "assertion failed: version == 0" := rfl

/-- Witness for C4. -/
theorem c4_witness :
    nvparse [0, 1, 0, 0, 1, 0, 0, 0, 1, 0, 0, 0] =
      .crash "assertion failed: version == 0" ∧
    nvparse [0, 1, 0, 0, 0, 0, 0, 0, 2, 0, 0, 0] =
      .crash "assertion failed: flags == 1" :=
  ⟨(c4_version_flags 0 0 1 0 0 0 1 0 0 0 []).1 (by decide),
   (c4_version_flags 0 0 0 0 0 0 2 0 0 0 []).2 (by decide) (by decide)⟩

/-- C5 (amended): every fixed-width read performed through `parse_int`
(total-length field, header fields, version/flags, fixed-width values)
returns `ShortRead` on a too-short buffer — in particular a buffer that ends
right after the four marker/reserved bytes fails with `ShortRead` at the
version read; but a buffer too short for the marker bytes panics on
indexing, a buffer too short for the 4-byte skip panics on slicing, and a
pair whose bounded region exceeds the remaining buffer panics in
`split_at`, rather than returning `ShortRead`. -/
theorem c5_short_reads :
    (∀ w8 bs, List.length bs < w8 → parseIntS w8 bs = .err .shortRead) ∧
    (∀ w8 bs, List.length bs < w8 → parseIntU w8 bs = .err .shortRead) ∧
    (∀ a b : Nat, nvparse [0, 1, a, b] = .err .shortRead) ∧
    (∀ (fuel : Nat) (buf buf1 : Buf) (len : Int), parseI32 buf = .ok (len, buf1) →
      len ≠ 0 → buf1.length < i32AsUsize (len - 4) →
      parsePair (fuel + 1) buf = .crash "split_at mid out of bounds") ∧
    nvparse [] = .crash "index out of bounds" ∧
    nvparse [0, 1, 0] = .crash "slice index out of range" := by
  refine ⟨?_, ?_, ?_, ?_, rfl, rfl⟩
  · intro w8 bs h; unfold parseIntS; rw [if_pos h]
  · intro w8 bs h; unfold parseIntU; rw [if_pos h]
  · intro a b
    unfold nvparse
    rw [parserParse_header]
    rfl
  · intro fuel buf buf1 len hlen hnz hlt
    rw [parsePair_succ]
    unfold parsePairGo
    rw [hlen]
    simp only [Res.bind]
    rw [if_neg hnz]
    simp only [if_pos hlt]

/-- Counterexample to C5 as frozen: the empty buffer is too short for the
first header-byte read, and decoding panics on the index instead of
returning `ShortRead`. -/
theorem c5_counterexample : nvparse [] = .crash "index out of bounds" := rfl

/-- Witness for C5. -/
theorem c5_witness :
    parseIntS 4 [] = .err .shortRead ∧
    parseIntU 8 [] = .err .shortRead ∧
    nvparse [0, 1, 0, 0] = .err .shortRead ∧
    parsePair 1 [8, 0, 0, 0] = .crash "split_at mid out of bounds" :=
  ⟨c5_short_reads.1 4 [] (by norm_num),
   c5_short_reads.2.1 8 [] (by norm_num),
   c5_short_reads.2.2.1 0 0,
   c5_short_reads.2.2.2.1 0 [8, 0, 0, 0] [] 8 rfl (by norm_num) (by decide)⟩

/-- Witness for C3. -/
theorem c3_witness :
    nvparse [9, 1] = .err .invalidEncoding ∧
    nvparse [0, 9] = .err .invalidEndian ∧
    nvparse [1, 1] = .crash "assertion failed: encoding == Native" ∧
    nvparse [0, 0] = .crash "assertion failed: endian == Little" :=
  ⟨(c3_markers 9 1 []).1 (by norm_num),
   (c3_markers 0 9 []).2.1 (by norm_num) (by norm_num),
   (c3_markers 1 1 []).2.2.1 rfl (by norm_num),
   (c3_markers 0 0 []).2.2.2 rfl rfl⟩


/-! ## Claims about the domain layer -/

theorem dlWalk_nil (f : Buf → Nat → Except ZIOErr IterState) (fuel : Nat) (acc : List Buf) :
    dlWalk f fuel [] acc = .ok acc := by
  cases fuel <;> rfl

/-- C6: a `dataset_list_next` failure with the `ESRCH` code (os error 3) is
treated as clean exhaustion of that branch of the walk (the stack entry is
simply popped), never surfaced; any other failure propagates as the error;
and a single-pool enumeration whose first call fails with `ESRCH` yields
just the pool itself — an empty child set. -/
theorem c6_esrch_exhaustion :
    (∀ (f : Buf → Nat → Except ZIOErr IterState) (fuel : Nat) (name : Buf)
        (cookie : Nat) (st : List (Buf × Nat)) (acc : List Buf),
      f name cookie = .error (.io (some 3)) →
      dlWalk f (fuel + 1) ((name, cookie) :: st) acc = dlWalk f fuel st acc) ∧
    (∀ (f : Buf → Nat → Except ZIOErr IterState) (fuel : Nat) (name : Buf)
        (cookie : Nat) (st : List (Buf × Nat)) (acc : List Buf) (e : ZIOErr),
      f name cookie = .error e → e ≠ .io (some 3) →
      dlWalk f (fuel + 1) ((name, cookie) :: st) acc = .err e) ∧
    (∀ (m : IocMock) (cfg stats : PairList) (pool : Buf) (fuel : Nat),
      m.poolConfigs = .ok cfg → cfg.keysList = [pool] →
      m.objsetStats pool = .ok stats → m.dlNext pool 0 = .error (.io (some 3)) →
      getDatasetList m (fuel + 1) = .ok [pool]) := by
  have hskip : ∀ (f : Buf → Nat → Except ZIOErr IterState) (fuel : Nat) (name : Buf)
      (cookie : Nat) (st : List (Buf × Nat)) (acc : List Buf),
      f name cookie = .error (.io (some 3)) →
      dlWalk f (fuel + 1) ((name, cookie) :: st) acc = dlWalk f fuel st acc := by
    intro f fuel name cookie st acc h
    conv_lhs => unfold dlWalk
    rw [h]
    simp
  refine ⟨hskip, fun f fuel name cookie st acc e h hne => ?_,
    fun m cfg stats pool fuel hcfg hkeys hstats hnext => ?_⟩
  · conv_lhs => unfold dlWalk
    rw [h]
    simp [hne]
  · have hw : dlWalk m.dlNext (fuel + 1) [(pool, 0)] [pool] = .ok [pool] := by
      rw [hskip m.dlNext fuel pool 0 [] [pool] hnext, dlWalk_nil]
    unfold getDatasetList
    rw [hcfg]
    show goPools m (fuel + 1) cfg.keysList [] = Res.ok [pool]
    rw [hkeys]
    unfold goPools
    rw [hstats]
    show (match dlWalk m.dlNext (fuel + 1) [(pool, 0)] ([] ++ [pool]) with
      | .ok acc2 => goPools m (fuel + 1) [] acc2
      | .err e => (Res.err e : Res ZIOErr (List Buf))
      | .crash s => Res.crash s
      | .spin => Res.spin) = Res.ok [pool]
    rw [show ([] ++ [pool] : List Buf) = [pool] from rfl, hw]
    rfl

/-- Witness for C6. -/
theorem c6_witness :
    c6mock.dlNext tankName 0 = .error (.io (some 3)) ∧
    dlWalk c6mock.dlNext 1 [(tankName, 0)] [tankName] = dlWalk c6mock.dlNext 0 [] [tankName] ∧
    dlWalk (fun _ _ => .error (.io (some 5))) 1 [(tankName, 0)] [] = .err (.io (some 5)) ∧
    getDatasetList c6mock 1 = .ok [tankName] :=
  ⟨rfl,
   c6_esrch_exhaustion.1 c6mock.dlNext 0 tankName 0 [] [tankName] rfl,
   c6_esrch_exhaustion.2.1 (fun _ _ => .error (.io (some 5))) 0 tankName 0 [] []
     (.io (some 5)) rfl (by decide),
   c6_esrch_exhaustion.2.2 c6mock (.mk [.mk tankName .boolean]) (.mk []) tankName 0
     rfl rfl rfl rfl⟩

/-- C7: the `datasets()` filter keeps exactly the names equal to the pool
name or extending it past a `/` separator — it agrees with the
spec-modelled filter on every input, and on the spec example it keeps
`"pool"`, `"pool/a"`, `"pool/ab"` and drops `"poolx"`. -/
theorem c7_dataset_filter :
    (∀ (name : Buf) (dss : List Buf), datasetsFilter name dss = specDatasets name dss) ∧
    datasetsFilter poolName [poolName, poolA, poolAB, poolX] = [poolName, poolA, poolAB] := by
  constructor
  · intro name dss
    unfold datasetsFilter specDatasets
    apply List.filter_congr
    intro ds _
    apply Bool.coe_iff_coe.mp
    simp only [Bool.and_eq_true, Bool.or_eq_true, beq_iff_eq, List.isPrefixOf_iff_prefix]
    constructor
    · rintro ⟨⟨t, rfl⟩, h⟩
      rcases h with hl | hidx
      · left
        have ht : t = [] := by
          rw [List.length_append] at hl
          have h0 : t.length = 0 := by omega
          exact List.length_eq_zero.mp h0
        subst ht
        simp
      · right
        rw [List.getElem?_append_right (Nat.le_refl _), Nat.sub_self] at hidx
        cases t with
        | nil => simp at hidx
        | cons x t2 =>
          simp only [List.getElem?_cons_zero, Option.some.injEq] at hidx
          subst hidx
          exact ⟨t2, by simp⟩
    · rintro (rfl | ⟨u, rfl⟩)
      · exact ⟨List.prefix_refl _, Or.inl rfl⟩
      · rw [List.append_assoc]
        refine ⟨⟨[47] ++ u, rfl⟩, Or.inr ?_⟩
        rw [List.getElem?_append_right (Nat.le_refl _), Nat.sub_self]
        simp
  · rfl


/-! ## Lemmas about the breadth-first device-tree walk -/

theorem sz_pos (l : PairList) : 0 < PairList.sz l := by
  cases l with
  | mk ps => exact Nat.succ_pos _

theorem listsSz_append (a b : List PairList) :
    listsSz (a ++ b) = listsSz a + listsSz b := by
  induction a with
  | nil => simp [listsSz]
  | cons x xs ih =>
    have ih2 : listsSz (xs.append b) = listsSz xs + listsSz b := ih
    simp only [List.cons_append, listsSz]
    omega

theorem pairsSz_of_mem {p : Pair} {ps : List Pair} (h : p ∈ ps) :
    Pair.psz p ≤ pairsSz ps := by
  induction ps with
  | nil => cases h
  | cons q qs ih =>
    rcases List.mem_cons.mp h with rfl | h2
    · simp only [pairsSz]
      omega
    · have := ih h2
      simp only [pairsSz]
      omega

theorem get_mem {l : PairList} {key : Buf} {p : Pair} (h : l.get key = some p) :
    p ∈ l.pairs := by
  unfold PairList.get at h
  split at h
  · cases h
  · exact List.mem_of_find?_eq_some h

theorem asListSlice_sz {p : Pair} {s : List PairList} (h : p.asListSlice = some s) :
    listsSz s < Pair.psz p := by
  cases p with
  | mk n v =>
    cases v with
    | boolean => simp [Pair.asListSlice] at h
    | uint64 k => simp [Pair.asListSlice] at h
    | string s2 => simp [Pair.asListSlice] at h
    | uint64Array ns => simp [Pair.asListSlice] at h
    | list l => simp [Pair.asListSlice] at h
    | listArray ls =>
      simp only [Pair.asListSlice, Option.some.injEq] at h
      subst h
      simp only [Pair.psz, PairValue.vsz]
      omega

theorem vdChildren_sz (vd : PairList) : listsSz (vdChildren vd) < PairList.sz vd := by
  unfold vdChildren
  cases hb : (vd.get childrenKey).bind Pair.asListSlice with
  | none =>
    simp only [Option.getD_none]
    simpa [listsSz] using sz_pos vd
  | some s =>
    simp only [Option.getD_some]
    obtain ⟨p, hp, hs⟩ := Option.bind_eq_some.mp hb
    have h1 := asListSlice_sz hs
    have h2 := pairsSz_of_mem (get_mem hp)
    cases vd with
    | mk ps =>
      simp only [PairList.pairs] at h2
      simp only [PairList.sz]
      omega

theorem bfsF_nil (fuel : Nat) (cache : List (Nat × PairList)) :
    bfsF fuel [] cache = some cache := by
  cases fuel <;> rfl

theorem bfsF_complete :
    ∀ (fuel : Nat) (q : List PairList) (cache : List (Nat × PairList)),
      listsSz q ≤ fuel → ∃ c2, bfsF fuel q cache = some c2 := by
  intro fuel
  induction fuel with
  | zero =>
    intro q cache h
    cases q with
    | nil => exact ⟨cache, rfl⟩
    | cons vd rest =>
      exfalso
      have := sz_pos vd
      simp only [listsSz] at h
      omega
  | succ n ih =>
    intro q cache h
    cases q with
    | nil => exact ⟨cache, rfl⟩
    | cons vd rest =>
      have hvd := sz_pos vd
      have hch := vdChildren_sz vd
      simp only [listsSz] at h
      cases hg : vdGuid vd with
      | none =>
        obtain ⟨c2, hc2⟩ := ih rest cache (by omega)
        exact ⟨c2, by simp only [bfsF, hg]; exact hc2⟩
      | some u =>
        obtain ⟨c2, hc2⟩ := ih (rest ++ vdChildren vd)
          (if (List.lookup u cache).isSome then cache else (u, vd) :: cache)
          (by rw [listsSz_append]; omega)
        exact ⟨c2, by simp only [bfsF, hg]; exact hc2⟩

theorem bfsF_mono {g : Nat} {v : PairList} :
    ∀ (fuel : Nat) (q : List PairList) (cache c2 : List (Nat × PairList)),
      List.lookup g cache = some v → bfsF fuel q cache = some c2 →
      List.lookup g c2 = some v := by
  intro fuel
  induction fuel with
  | zero =>
    intro q cache c2 hl hb
    cases q with
    | nil =>
      rw [bfsF_nil] at hb
      simp only [Option.some.injEq] at hb
      subst hb
      exact hl
    | cons vd rest => simp [bfsF] at hb
  | succ n ih =>
    intro q cache c2 hl hb
    cases q with
    | nil =>
      rw [bfsF_nil] at hb
      simp only [Option.some.injEq] at hb
      subst hb
      exact hl
    | cons vd rest =>
      simp only [bfsF] at hb
      cases hg : vdGuid vd with
      | none =>
        rw [hg] at hb
        exact ih rest cache c2 hl hb
      | some u =>
        rw [hg] at hb
        apply ih (rest ++ vdChildren vd)
          (if (List.lookup u cache).isSome then cache else (u, vd) :: cache) c2 ?_ hb
        by_cases hc : (List.lookup u cache).isSome
        · rw [if_pos hc]
          exact hl
        · rw [if_neg hc]
          have hne : (g == u) = false := by
            rw [beq_eq_false_iff_ne]
            rintro rfl
            exact hc (by simp [hl])
          simp only [List.lookup, hne]
          exact hl

theorem bfsF_covers {g : Nat} :
    ∀ (fuel : Nat) (q : List PairList) (cache c2 : List (Nat × PairList)) (vd : PairList),
      bfsF fuel q cache = some c2 → vd ∈ q → GuidReach g vd →
      (List.lookup g c2).isSome = true := by
  intro fuel
  induction fuel with
  | zero =>
    intro q cache c2 vd hb hm hr
    cases q with
    | nil => cases hm
    | cons a rest => simp [bfsF] at hb
  | succ n ih =>
    intro q cache c2 vd hb hm hr
    cases q with
    | nil => cases hm
    | cons a rest =>
      simp only [bfsF] at hb
      cases hg : vdGuid a with
      | none =>
        rw [hg] at hb
        rcases List.mem_cons.mp hm with rfl | hm2
        · cases hr with
          | here _ hgg => rw [hg] at hgg; cases hgg
          | deeper _ c hs hc2 hrr => rw [hg] at hs; simp at hs
        · exact ih rest cache c2 vd hb hm2 hr
      | some u =>
        rw [hg] at hb
        rcases List.mem_cons.mp hm with rfl | hm2
        · cases hr with
          | here _ hgg =>
            rw [hg] at hgg
            have hug : u = g := by injection hgg
            rw [hug] at hb
            by_cases hc : (List.lookup g cache).isSome
            · obtain ⟨w, hw⟩ := Option.isSome_iff_exists.mp hc
              have hw2 : List.lookup g
                  (if (List.lookup g cache).isSome then cache else (g, vd) :: cache) =
                  some w := by
                rw [if_pos hc]
                exact hw
              rw [bfsF_mono n (rest ++ vdChildren vd) _ c2 hw2 hb]
              rfl
            · have hw2 : List.lookup g
                  (if (List.lookup g cache).isSome then cache else (g, vd) :: cache) =
                  some vd := by
                rw [if_neg hc]
                simp [List.lookup]
              rw [bfsF_mono n (rest ++ vdChildren vd) _ c2 hw2 hb]
              rfl
          | deeper _ c hs hc2 hrr =>
            exact ih (rest ++ vdChildren vd) _ c2 c hb (List.mem_append_right _ hc2) hrr
        · exact ih (rest ++ vdChildren a) _ c2 vd hb (List.mem_append_left _ hm2) hr

theorem bfsF_inv :
    ∀ (fuel : Nat) (q : List PairList) (cache c2 : List (Nat × PairList)),
      CacheInv cache → bfsF fuel q cache = some c2 → CacheInv c2 := by
  intro fuel
  induction fuel with
  | zero =>
    intro q cache c2 hci hb
    cases q with
    | nil =>
      rw [bfsF_nil] at hb
      simp only [Option.some.injEq] at hb
      subst hb
      exact hci
    | cons a rest => simp [bfsF] at hb
  | succ n ih =>
    intro q cache c2 hci hb
    cases q with
    | nil =>
      rw [bfsF_nil] at hb
      simp only [Option.some.injEq] at hb
      subst hb
      exact hci
    | cons a rest =>
      simp only [bfsF] at hb
      cases hg : vdGuid a with
      | none =>
        rw [hg] at hb
        exact ih rest cache c2 hci hb
      | some u =>
        rw [hg] at hb
        apply ih (rest ++ vdChildren a)
          (if (List.lookup u cache).isSome then cache else (u, a) :: cache) c2 ?_ hb
        by_cases hc : (List.lookup u cache).isSome
        · rw [if_pos hc]
          exact hci
        · rw [if_neg hc]
          intro u2 v2 hlv
          by_cases hu : (u2 == u) = true
          · rw [beq_iff_eq] at hu
            subst hu
            simp only [List.lookup, beq_self_eq_true] at hlv
            injection hlv with hv2
            subst hv2
            exact hg
          · have hu2 : (u2 == u) = false := by
              cases h2 : (u2 == u)
              · rfl
              · exact absurd h2 hu
            simp only [List.lookup, hu2] at hlv
            exact hci u2 v2 hlv

theorem bfsF_not_reach {g : Nat} :
    ∀ (fuel : Nat) (q : List PairList) (cache c2 : List (Nat × PairList)),
      (∀ vd ∈ q, ¬ GuidReach g vd) → List.lookup g cache = none →
      bfsF fuel q cache = some c2 → List.lookup g c2 = none := by
  intro fuel
  induction fuel with
  | zero =>
    intro q cache c2 hq hcn hb
    cases q with
    | nil =>
      rw [bfsF_nil] at hb
      simp only [Option.some.injEq] at hb
      subst hb
      exact hcn
    | cons a rest => simp [bfsF] at hb
  | succ n ih =>
    intro q cache c2 hq hcn hb
    cases q with
    | nil =>
      rw [bfsF_nil] at hb
      simp only [Option.some.injEq] at hb
      subst hb
      exact hcn
    | cons a rest =>
      simp only [bfsF] at hb
      cases hg : vdGuid a with
      | none =>
        rw [hg] at hb
        exact ih rest cache c2 (fun vd hm => hq vd (List.mem_cons_of_mem _ hm)) hcn hb
      | some u =>
        rw [hg] at hb
        have hug : u ≠ g := by
          rintro rfl
          exact hq a (List.mem_cons_self _ _) (GuidReach.here a hg)
        apply ih (rest ++ vdChildren a)
          (if (List.lookup u cache).isSome then cache else (u, a) :: cache) c2 ?_ ?_ hb
        · intro vd hm
          rcases List.mem_append.mp hm with hm2 | hm2
          · exact hq vd (List.mem_cons_of_mem _ hm2)
          · intro hrr
            exact hq a (List.mem_cons_self _ _)
              (GuidReach.deeper a vd (by simp [hg]) hm2 hrr)
        · by_cases hc : (List.lookup u cache).isSome
          · rw [if_pos hc]
            exact hcn
          · rw [if_neg hc]
            have hne : (g == u) = false := by
              rw [beq_eq_false_iff_ne]
              exact fun h => hug h.symm
            simp only [List.lookup, hne]
            exact hcn

theorem getVdev_eq (cache : List (Nat × PairList)) (plist top : PairList) (g : Nat)
    (hc : List.lookup g cache = none)
    (htree : (plist.get vdevTreeKey).bind Pair.asList = some top)
    {c2 : List (Nat × PairList)} (hc2 : bfsF (PairList.sz top) [top] cache = some c2) :
    getVdev cache plist g =
      match List.lookup g c2 with
      | some v => Res.ok v
      | none => Res.crash "called Option::unwrap on a None value" := by
  unfold getVdev
  rw [hc]
  show (match (plist.get vdevTreeKey).bind Pair.asList with
    | none => (Res.err ZfsErr.notFound : Res ZfsErr PairList)
    | some top2 =>
      match bfsF (PairList.sz top2) [top2] cache with
      | none => Res.spin
      | some cache2 =>
        match List.lookup g cache2 with
        | some v => Res.ok v
        | none => Res.crash "called Option::unwrap on a None value") = _
  rw [htree]
  show (match bfsF (PairList.sz top) [top] cache with
    | none => (Res.spin : Res ZfsErr PairList)
    | some cache2 =>
      match List.lookup g cache2 with
      | some v => Res.ok v
      | none => Res.crash "called Option::unwrap on a None value") = _
  rw [hc2]

/-- C8 (amended): device lookup is a breadth-first search from the
device-tree root that matches each node's `guid` entry and queues the
children of guid-carrying nodes; whenever the identifier is reachable from
the root through guid-carrying nodes, the lookup returns a statistics
container whose `guid` entry is the requested identifier — including when it
sits two levels below the root. -/
theorem c8_bfs_lookup (plist top : PairList) (g : Nat)
    (htree : (plist.get vdevTreeKey).bind Pair.asList = some top)
    (hreach : GuidReach g top) :
    match getVdev [] plist g with
    | .ok v => vdGuid v = some g
    | _ => False := by
  obtain ⟨c2, hc2⟩ := bfsF_complete (PairList.sz top) [top] []
    (by simp [listsSz])
  have hsome := bfsF_covers (PairList.sz top) [top] [] c2 top hc2
    (List.mem_singleton.mpr rfl) hreach
  obtain ⟨v, hv⟩ := Option.isSome_iff_exists.mp hsome
  have hres : getVdev [] plist g = .ok v := by
    rw [getVdev_eq [] plist top g rfl htree hc2, hv]
  rw [hres]
  exact bfsF_inv (PairList.sz top) [top] [] c2
    (fun u w h => Option.noConfusion h) hc2 g v hv

/-- Counterexample to C8 as frozen: guid 7 is present in the tree (on a
child node), but the root carries no `guid` entry, so the walk never
descends into its children and the final cache `unwrap` panics instead of
returning the child's statistics container. -/
theorem c8_counterexample :
    getVdev [] c8plist 7 = .crash "called Option::unwrap on a None value" := rfl

/-- Witness for C8: guid 7 sits two levels below the root of `c8top`, and
the lookup returns its statistics container. -/
theorem c8_witness :
    (match getVdev [] c8wplist 7 with
     | .ok v => vdGuid v = some 7
     | _ => False) ∧
    getVdev [] c8wplist 7 = .ok c8leaf := by
  constructor
  · exact c8_bfs_lookup c8wplist c8top 7 rfl
      (GuidReach.deeper c8top c8mid rfl
        (List.mem_cons_of_mem _ (List.mem_cons_self _ _))
        (GuidReach.deeper c8mid c8leaf rfl (List.mem_cons_self _ _)
          (GuidReach.here c8leaf rfl)))
  · rfl

/-- C9: with the guid not in the cache and no `vdev_tree` list in the pool
statistics, `get_vdev` reports the distinct `NotFound` error (no panic);
and `Pool::root_vdev` reports `NotFound` whenever its
`vdev_tree → as_list → guid → to_u64` chain fails. -/
theorem c9_not_found (cache : List (Nat × PairList)) (plist : PairList) (g : Nat)
    (hc : List.lookup g cache = none)
    (ht : (plist.get vdevTreeKey).bind Pair.asList = none) :
    getVdev cache plist g = .err .notFound ∧
    (∀ plist2 : PairList,
      (((plist2.get vdevTreeKey).bind Pair.asList).bind
        (fun l => (l.get guidKey).bind Pair.toU64)) = none →
      rootVdev plist2 = .err .notFound) := by
  constructor
  · unfold getVdev
    rw [hc]
    show (match (plist.get vdevTreeKey).bind Pair.asList with
      | none => (Res.err ZfsErr.notFound : Res ZfsErr PairList)
      | some top2 =>
        match bfsF (PairList.sz top2) [top2] cache with
        | none => Res.spin
        | some cache2 =>
          match List.lookup g cache2 with
          | some v => Res.ok v
          | none => Res.crash "called Option::unwrap on a None value") = _
    rw [ht]
  · intro plist2 h2
    unfold rootVdev
    rw [h2]

/-- Witness for C9. -/
theorem c9_witness :
    getVdev [] (.mk []) 5 = .err .notFound ∧ rootVdev (.mk []) = .err .notFound :=
  ⟨(c9_not_found [] (.mk []) 5 rfl rfl).1,
   (c9_not_found [] (.mk []) 5 rfl rfl).2 (.mk []) rfl⟩

/-- C10: when the statistics do contain a `vdev_tree` but no walk-reachable
node carries the requested guid (and the guid is not already cached), the
lookup does not produce the `NotFound` error — the final cache retrieval
`unwrap`s a missing entry and panics. -/
theorem c10_unwrap_panic (cache : List (Nat × PairList)) (plist top : PairList) (g : Nat)
    (hc : List.lookup g cache = none)
    (htree : (plist.get vdevTreeKey).bind Pair.asList = some top)
    (hnr : ¬ GuidReach g top) :
    getVdev cache plist g = .crash "called Option::unwrap on a None value" := by
  obtain ⟨c2, hc2⟩ := bfsF_complete (PairList.sz top) [top] cache
    (by simp [listsSz])
  have hnone : List.lookup g c2 = none := by
    apply bfsF_not_reach (PairList.sz top) [top] cache c2 ?_ hc hc2
    intro vd hm
    rw [List.mem_singleton] at hm
    subst hm
    exact hnr
  rw [getVdev_eq cache plist top g hc htree hc2, hnone]

/-- Witness for C10: a tree whose only node carries guid 1 makes the lookup
for guid 2 panic. -/
theorem c10_witness :
    getVdev [] c10plist 2 = .crash "called Option::unwrap on a None value" :=
  c10_unwrap_panic [] c10plist c10top 2 rfl rfl (by
    intro h
    cases h with
    | here _ hgg => exact absurd hgg (by decide)
    | deeper _ c hs hc2 hrr =>
      rw [show vdChildren c10top = [] from rfl] at hc2
      exact List.not_mem_nil c hc2)

end Veneer
